import Mathlib

/-!
Shallow embedding of the research-job orchestration and candidate-validation
pipeline of the agent-profit catalog repository.

The definitions below are translated from the TypeScript source:
* `src/app/api/cron/parse-new-stories/route.ts` (candidate validator/normalizer),
* `src/lib/blobScoutAsync.ts` (job schema, source/summary aggregation),
* `src/lib/scoutConfig.ts` (declared research stages),
* the finalize route of the scout job (poll loop, attempt budget),
* `src/app/api/cron/find-new-case-studies/start/route.ts` (stage creation),
* `src/lib/blobCaseStudies.ts` (versioned snapshot/manifest publication).

Strings are processed on their underlying character lists so that every
definition evaluates inside the kernel.  JavaScript regular expressions are
translated into explicit character scans; `\s` is modelled by the JS
whitespace characters that occur in ASCII data.
-/

namespace AgentProfit

/-! ### JavaScript string primitives (character-list based) -/

/-- The ASCII characters matched by the JS regex class backslash-s. -/
def jsWsChar (c : Char) : Bool :=
  c = ' ' || c = '\t' || c = '\n' || c = '\r' || c = '\x0b' || c = '\x0c'

/-- `String.prototype.trim`: drop JS whitespace from both ends. -/
def trimChars (l : List Char) : List Char :=
  (((l.dropWhile jsWsChar).reverse).dropWhile jsWsChar).reverse

def jsTrim (s : String) : String := String.mk (trimChars s.data)

/-- `String.prototype.toLowerCase` (ASCII-faithful). -/
def jsToLower (s : String) : String := String.mk (s.data.map Char.toLower)

/-- Substring containment on character lists (`String.prototype.includes`). -/
def containsSub (needle : List Char) : List Char → Bool
  | [] => needle.isPrefixOf []
  | c :: rest => needle.isPrefixOf (c :: rest) || containsSub needle rest

/-- `String.prototype.includes`. -/
def jsIncludes (s sub : String) : Bool := containsSub sub.data s.data

/-- `String.prototype.startsWith`. -/
def jsStartsWith (s pre : String) : Bool := pre.data.isPrefixOf s.data

/-- `String.prototype.endsWith`. -/
def jsEndsWith (s suf : String) : Bool := suf.data.isSuffixOf s.data

/-- `String.prototype.split` on a one-character separator. -/
def splitOnChar (sep : Char) (l : List Char) : List (List Char) :=
  match l with
  | [] => [[]]
  | c :: rest =>
    let r := splitOnChar sep rest
    if c = sep then [] :: r
    else
      match r with
      | [] => [[c]]
      | g :: gs => (c :: g) :: gs

/-- `Array.prototype.join` with a separator string, on strings. -/
def joinWith (sep : String) : List String → String
  | [] => ""
  | [s] => s
  | s :: rest => s ++ sep ++ joinWith sep rest

/-! ### URL parsing (`new URL(...)`, hostname and pathname only)

The WHATWG parser is modelled for the `http(s)`-style URLs the pipeline
handles: the authority is the text between `//` and the first of `/ ? #`,
user-info before a `@` is dropped, the port after the final `:` is dropped,
and the hostname is lower-cased.  An absent scheme or empty host models the
constructor throwing. -/

structure ParsedUrl where
  host : String
  path : String
  deriving Repr, DecidableEq

/-- Split off a leading `scheme://`; returns the remainder after `//`. -/
def dropScheme (l : List Char) : Option (List Char) :=
  match l.findIdx? (fun c => c = ':') with
  | none => none
  | some i =>
    let before := l.take i
    if before = [] then none
    else if before.all (fun c => c.isAlpha || c.isDigit || c = '+' || c = '-' || c = '.') then
      match l.drop (i + 1) with
      | '/' :: '/' :: rest => some rest
      | _ => none
    else none

def parseUrl (s : String) : Option ParsedUrl :=
  match dropScheme s.data with
  | none => none
  | some rest =>
    let authority := rest.takeWhile (fun c => c ≠ '/' && c ≠ '?' && c ≠ '#')
    let afterAuth := rest.drop authority.length
    -- drop user-info (text before the last '@')
    let hostPort :=
      match (splitOnChar '@' authority).reverse with
      | [] => authority
      | h :: _ => h
    -- drop the port (text after the first ':')
    let host := hostPort.takeWhile (fun c => c ≠ ':')
    if host = [] then none
    else
      let path := afterAuth.takeWhile (fun c => c ≠ '?' && c ≠ '#')
      some { host := String.mk (host.map Char.toLower)
             path := if path = [] then "/" else String.mk path }

/-- `getUrlHost`: hostname lower-cased, or `""` when `new URL` throws. -/
def getUrlHost (url : String) : String :=
  match parseUrl url with
  | some u => jsToLower u.host
  | none => ""

/-! ### Tiered social-media policy -/

/-- Tier 1: always allowed (primary/trusted platforms). -/
def TIER1_ALLOWED_HOSTS : List String :=
  ["youtube.com", "youtu.be", "github.com", "indiehackers.com", "devpost.com", "kaggle.com"]

/-- Tier 2: allowed with corroboration (indie maker platforms). -/
def TIER2_CORROBORATION_HOSTS : List String :=
  ["twitter.com", "x.com", "reddit.com", "linkedin.com"]

/-- Tier 3: always blocked. -/
def TIER3_BLOCKED_HOSTS : List String :=
  ["facebook.com", "tiktok.com", "instagram.com", "discord.com", "t.me", "telegram.me"]

def hostMatches (host : String) (hostSet : List String) : Bool :=
  hostSet.contains host || hostSet.any (fun h => jsEndsWith host ("." ++ h))

def isTier1Url (url : String) : Bool := hostMatches (getUrlHost url) TIER1_ALLOWED_HOSTS

def isTier2Url (url : String) : Bool := hostMatches (getUrlHost url) TIER2_CORROBORATION_HOSTS

def isTier3Url (url : String) : Bool := hostMatches (getUrlHost url) TIER3_BLOCKED_HOSTS

def isXTwitterUrl (url : String) : Bool :=
  let host := getUrlHost url
  host = "x.com" || host = "twitter.com" ||
    jsEndsWith host ".x.com" || jsEndsWith host ".twitter.com"

/-! ### Money-token recognition

The JS regexes only ever `test` for, or take the first greedy match of,
a dollar amount; every alternative after the first digit is optional, so
`test` succeeds exactly when a `$`, an optional whitespace character, and a
digit occur consecutively. -/

/-- After a `$`: an optional single JS whitespace character, then a digit. -/
def afterDollarMatches : List Char → Bool
  | [] => false
  | c :: rest =>
    if c.isDigit then true
    else if jsWsChar c then
      match rest with
      | d :: _ => d.isDigit
      | [] => false
    else false

def hasDollarChars : List Char → Bool
  | [] => false
  | c :: rest => (decide (c = '$') && afterDollarMatches rest) || hasDollarChars rest

/-- `hasDollarAmount`: regex test for a literal dollar amount. -/
def hasDollarAmount (s : String) : Bool := hasDollarChars s.data

/-- Greedy tail of the dollar-amount regex after the first digit:
`[\d,]*` then optional `.` + digits, then optional whitespace, then an
optional `kKmMbB` suffix.  Returns the matched characters. -/
def dollarTokenTail (l : List Char) : List Char :=
  let digits := l.takeWhile (fun c => c.isDigit || c = ',')
  let l1 := l.drop digits.length
  let frac :=
    match l1 with
    | '.' :: d :: rest =>
      if d.isDigit then '.' :: d :: rest.takeWhile Char.isDigit else []
    | _ => []
  let l2 := l1.drop frac.length
  let ws :=
    match l2 with
    | c :: _ => if jsWsChar c then [c] else []
    | [] => []
  let l3 := l2.drop ws.length
  let suf :=
    match l3 with
    | c :: _ => if c = 'k' || c = 'K' || c = 'm' || c = 'M' || c = 'b' || c = 'B' then [c] else []
    | [] => []
  digits ++ frac ++ ws ++ suf

/-- First match of the dollar-amount regex, as the raw matched characters. -/
def firstDollarMatch : List Char → Option (List Char)
  | [] => none
  | '$' :: rest =>
    (match rest with
     | c :: tail =>
       if c.isDigit then some ('$' :: c :: dollarTokenTail tail)
       else if jsWsChar c then
         match tail with
         | d :: tail2 =>
           if d.isDigit then some ('$' :: c :: d :: dollarTokenTail tail2)
           else firstDollarMatch rest
         | [] => firstDollarMatch rest
       else firstDollarMatch rest
     | [] => none)
  | _ :: rest => firstDollarMatch rest

/-- Replace every maximal run of characters satisfying `p` with the single
character `r` (the shape of `replace(/X+/g, "r")`); the flag records whether
the previous character was inside a run. -/
def collapseRunsAux (p : Char → Bool) (r : Char) : List Char → Bool → List Char
  | [], _ => []
  | c :: rest, inRun =>
    if p c then
      (if inRun then collapseRunsAux p r rest true else r :: collapseRunsAux p r rest true)
    else c :: collapseRunsAux p r rest false

def collapseRunsWith (p : Char → Bool) (r : Char) (l : List Char) : List Char :=
  collapseRunsAux p r l false

/-- Collapse runs of JS whitespace to single spaces (`replace(/\s+/g, " ")`). -/
def collapseWs (l : List Char) : List Char := collapseRunsWith jsWsChar ' ' l

/-- `extractFirstDollarToken`. -/
def extractFirstDollarToken (s : String) : String :=
  match firstDollarMatch s.data with
  | none => ""
  | some m => String.mk (trimChars (collapseWs m))

/-- Is the character a JS word character (for the `\b` boundary)? -/
def jsWordChar (c : Char) : Bool := c.isAlpha || c.isDigit || c = '_'

/-- Attempt the shorthand-money regex at the current position:
optional `$`, optional whitespace, digits, optional fraction, optional
whitespace, a required `kKmMbB`, then a word boundary. -/
def shorthandAt (l : List Char) : Option (List Char) :=
  let dollar := match l with | '$' :: _ => ['$'] | _ => []
  let l1 := l.drop dollar.length
  let ws := match l1 with | c :: _ => if jsWsChar c then [c] else [] | _ => []
  let l2 := l1.drop ws.length
  let digits := l2.takeWhile Char.isDigit
  if digits = [] then none
  else
    let l3 := l2.drop digits.length
    let frac :=
      match l3 with
      | '.' :: d :: rest => if d.isDigit then '.' :: d :: rest.takeWhile Char.isDigit else []
      | _ => []
    let l4 := l3.drop frac.length
    let ws2 := match l4 with | c :: _ => if jsWsChar c then [c] else [] | _ => []
    let l5 := l4.drop ws2.length
    match l5 with
    | c :: rest =>
      if (c = 'k' || c = 'K' || c = 'm' || c = 'M' || c = 'b' || c = 'B') then
        match rest with
        | [] => some (dollar ++ ws ++ digits ++ frac ++ ws2 ++ [c])
        | d :: _ => if jsWordChar d then none else some (dollar ++ ws ++ digits ++ frac ++ ws2 ++ [c])
      else none
    | [] => none

def firstShorthandMatch : List Char → Option (List Char)
  | [] => none
  | c :: rest =>
    match shorthandAt (c :: rest) with
    | some m => some m
    | none => firstShorthandMatch rest

/-- `extractFirstShorthandMoneyToken`: shorthand like `100k` or `1.2M`,
normalised to start with `$`. -/
def extractFirstShorthandMoneyToken (s : String) : String :=
  match firstShorthandMatch s.data with
  | none => ""
  | some m =>
    let raw := trimChars (collapseWs m)
    match raw with
    | '$' :: _ => String.mk raw
    | _ =>
      -- `"$" + raw.replace(/^\$?\s?/, "")`: strip an optional leading `$`
      -- and one whitespace character before prefixing `$`.
      let stripped :=
        match raw with
        | '$' :: c :: rest => if jsWsChar c then rest else c :: rest
        | '$' :: [] => []
        | c :: rest => if jsWsChar c then rest else c :: rest
        | [] => []
      String.mk ('$' :: stripped)

/-! ### Funding/valuation context denylist -/

def MONEY_CONTEXT_DENY : List String :=
  ["funding", "raised", "valuation", "capex", "market cap", "secondary market",
   "secondary markets", "venture", "series a", "series b", "series c", "seed round"]

def looksLikeFundingOrValuationContext (s : String) : Bool :=
  MONEY_CONTEXT_DENY.any (fun w => jsIncludes (jsToLower s) w)

def isAllowedPlatformUrl (url : String) : Bool := isTier1Url url

/-- `likelySelfBlogUrl`: medium/substack hosts, `blog.` hosts, `/blog` paths. -/
def likelySelfBlogUrl (url : String) : Bool :=
  match parseUrl url with
  | none => false
  | some u =>
    let host := jsToLower u.host
    let path := jsToLower u.path
    host = "medium.com" || jsEndsWith host ".medium.com" ||
    host = "substack.com" || jsEndsWith host ".substack.com" ||
    jsStartsWith host "blog." || jsIncludes path "/blog"

/-- Tiny eTLD+1 approximation (`registrableDomain`). -/
def registrableDomain (hostname : String) : String :=
  let host := String.mk ((jsToLower hostname).data.reverse.dropWhile (fun c => c = '.')).reverse
  let parts := (splitOnChar '.' host.data).filter (fun p => p ≠ [])
  if parts.length ≤ 2 then host
  else
    let last2 := joinWith "." ((parts.drop (parts.length - 2)).map String.mk)
    let last3 := joinWith "." ((parts.drop (parts.length - 3)).map String.mk)
    let multi : List String :=
      ["co.uk", "org.uk", "gov.uk", "ac.uk", "com.au", "net.au", "org.au", "edu.au",
       "gov.au", "co.nz", "org.nz", "gov.nz", "ac.nz"]
    if multi.contains last2 && parts.length ≥ 3 then last3 else last2

/-! ### Misc small helpers from the route module -/

def todayLikeIsoChars (l : List Char) : Bool :=
  match l with
  | [a, b, c, d, e, f, g, h, i, j] =>
    a.isDigit && b.isDigit && c.isDigit && d.isDigit && e = '-' &&
    f.isDigit && g.isDigit && h = '-' && i.isDigit && j.isDigit
  | _ => false

/-- `typeof x === "string" ? x.trim() : ""`. -/
def optStr (o : Option String) : String :=
  match o with
  | some s => jsTrim s
  | none => ""

/-- `coerceIsoDate`: keep a trimmed `YYYY-MM-DD` string, else the fallback. -/
def coerceIsoDate (input : Option String) (fallback : String) : String :=
  let s := optStr input
  if todayLikeIsoChars s.data then s else fallback

/-- `isHttpUrl`: case-insensitive `http://` or `https://` prefix test. -/
def isHttpUrl (url : String) : Bool :=
  jsStartsWith (jsToLower url) "http://" || jsStartsWith (jsToLower url) "https://"

def slugNonAlnum (c : Char) : Bool := !(('a' ≤ c && c ≤ 'z') || c.isDigit)

/-- `slugify`: lower-case, `$` → `" dollars "`, non-alphanumeric runs → `-`,
collapse dashes, strip a leading/trailing dash, first 90 characters. -/
def slugify (input : String) : String :=
  let l0 := input.data.map Char.toLower
  let l1 := l0.flatMap (fun c => if c = '$' then " dollars ".data else [c])
  let l2 := collapseRunsWith slugNonAlnum '-' l1
  let l3 := collapseRunsWith (fun c => c = '-') '-' l2
  let l4 :=
    let a := match l3 with | '-' :: rest => rest | other => other
    match a.reverse with | '-' :: rest => rest.reverse | _ => a
  String.mk (l4.take 90)

/-! ### Candidate data model -/

inductive CsStatus
  | verified
  | speculation
  deriving Repr, DecidableEq

inductive ScoutMode
  | strict
  | speculation
  deriving Repr, DecidableEq

/-- A proof source attached to a (raw or accepted) case study.  Fields of the
raw JSON that may be missing or non-string are `Option`s. -/
structure RawProofSource where
  label : Option String
  url : Option String
  kind : Option String
  excerpt : Option String
  deriving Repr, DecidableEq

structure ProofSource where
  label : String
  url : String
  kind : Option String
  excerpt : Option String
  deriving Repr, DecidableEq

/-- An untrusted candidate object produced by the extractor LLM. -/
structure RawCandidate where
  id : Option String
  date : Option String
  title : Option String
  summary : Option String
  description : Option String
  profitMechanisms : Option (List String)
  tags : Option (List String)
  proofSources : Option (List RawProofSource)
  status : Option String
  deriving Repr, DecidableEq

structure CaseStudy where
  id : String
  date : String
  title : String
  summary : String
  description : String
  profitMechanisms : List String
  tags : List String
  proofSources : List ProofSource
  status : CsStatus
  deriving Repr, DecidableEq

/-- `Array.isArray(x) ? x.filter(s => typeof s === "string" && s.trim()).map(s => s.trim()) : []`. -/
def cleanStrList (o : Option (List String)) : List String :=
  match o with
  | none => []
  | some l => (l.filter (fun x => jsTrim x ≠ "")).map jsTrim

/-- The type/shape filter and trim pass over the raw proof sources. -/
def baseProofSources (c : RawCandidate) : List ProofSource :=
  (c.proofSources.getD []).filterMap (fun s =>
    match s.label, s.url with
    | some lab, some u =>
      some { label := jsTrim lab, url := jsTrim u, kind := s.kind, excerpt := s.excerpt.map jsTrim }
    | _, _ => none)

/-- The URL-hygiene filter: keep syntactic HTTP(S) URLs that are allowed,
extractor-tagged websites, or arbitrary non-social links. -/
def hygieneKeep (allowedUrls : List String) (s : ProofSource) : Bool :=
  if s.label = "" || s.url = "" || !isHttpUrl s.url then false
  else if allowedUrls.contains s.url then true
  else if s.kind = some "website" then true
  else if !isTier2Url s.url && !isTier3Url s.url && !isXTwitterUrl s.url then true
  else false

/-- Proof sources surviving the shape pass and the URL-hygiene filter. -/
def hygieneSources (c : RawCandidate) (allowedUrls : List String) : List ProofSource :=
  (baseProofSources c).filter (hygieneKeep allowedUrls)

/-- `hasTier2Corroboration`: a Tier-2 URL is corroborated when it is a Grok
native X result, or some other source is Tier-1 or non-social. -/
def hasTier2Corroboration
    (tier2Url : String) (allProofSources : List ProofSource) (grokStageUrls : List String) : Bool :=
  (isXTwitterUrl tier2Url && grokStageUrls.contains tier2Url) ||
  allProofSources.any (fun source =>
    if source.url = tier2Url then false
    else isTier1Url source.url || (!isTier2Url source.url && !isTier3Url source.url))

def tierFilterKeep (all : List ProofSource) (grok : List String) (s : ProofSource) : Bool :=
  if isTier3Url s.url then false
  else if isTier2Url s.url then hasTier2Corroboration s.url all grok
  else true

/-- The tiered social policy applied to the hygiene survivors. -/
def tierFiltered (ps : List ProofSource) (grok : List String) : List ProofSource :=
  ps.filter (tierFilterKeep ps grok)

/-- At least one surviving source is Tier-1, non-social, or a Grok X source. -/
def survivorsHaveAnchor (filtered : List ProofSource) (grok : List String) : Bool :=
  filtered.any (fun s =>
    isTier1Url s.url || (!isTier2Url s.url && !isTier3Url s.url) ||
    (isXTwitterUrl s.url && grok.contains s.url))

/-- Backfill a missing/empty excerpt from the search snippet for the URL. -/
def backfillExcerpt (snip : List (String × String)) (s : ProofSource) : ProofSource :=
  let keep : Bool := match s.excerpt with
    | some e => e ≠ ""
    | none => false
  if keep then s
  else
    let snippet := (List.lookup s.url snip).getD ""
    if jsTrim snippet ≠ "" then { s with excerpt := some (jsTrim snippet) } else s

def backfillExcerpts (snip : List (String × String)) (ps : List ProofSource) : List ProofSource :=
  ps.map (backfillExcerpt snip)

/-- `s.excerpt ? hasDollarAmount(s.excerpt) : false`. -/
def excerptHasDollar (s : ProofSource) : Bool :=
  match s.excerpt with
  | some e => hasDollarAmount e
  | none => false

/-- Does an optional found source carry a non-empty excerpt
(the JS truthiness of `excerptWithDollar?.excerpt`)? -/
def foundExcerptTruthy (o : Option ProofSource) : Bool :=
  match o with
  | some s => (match s.excerpt with | some e => e ≠ "" | none => false)
  | none => false

/-- Registrable domains of the sources, invalid URLs filtered out. -/
def sourceDomains (ps : List ProofSource) : List String :=
  (ps.map (fun s =>
    match parseUrl s.url with
    | some u => registrableDomain u.host
    | none => "")).filter (fun d => d ≠ "")

def dedupKeepFirst : List String → List String → List String
  | [], _ => []
  | s :: rest, seen =>
    if seen.contains s then dedupKeepFirst rest seen
    else s :: dedupKeepFirst rest (s :: seen)

/-- Size of the JS `new Set(domains)`. -/
def uniqueCount (l : List String) : Nat := (dedupKeepFirst l []).length

/-- `/^[a-z0-9-]+$/`. -/
def slugIdPattern (s : String) : Bool :=
  !s.data.isEmpty && s.data.all (fun c => ('a' ≤ c && c ≤ 'z') || c.isDigit || c = '-')

/-- The pre-uniquification id: the candidate id when it is a well-formed slug,
else `date-slugify(...)`.  (The JS fallback to a random id is unreachable:
after either rewrite the id contains the `-` separator and is non-empty.) -/
def derivedBaseIdFrom (rawId : Option String) (date : String) (title : String) : String :=
  let id0 := optStr rawId
  let id1 := if id0 = "" then date ++ "-" ++ slugify title else id0
  if !slugIdPattern id1 then date ++ "-" ++ slugify (if id1 = "" then title else id1) else id1

/-- The collision loop: try `id`, then `id-2`, `id-3`, … until the candidate
is not in `existingIds`.  Fuel bounds the loop; `existingIds.length + 1`
iterations always suffice because the candidates are pairwise distinct. -/
def idLoop (id : String) (existing : List String) : String → Nat → Nat → String
  | unique, _, 0 => unique
  | unique, n, Nat.succ fuel =>
    if existing.contains unique then idLoop id existing (id ++ "-" ++ toString n) (n + 1) fuel
    else unique

def pickUniqueId (id : String) (existing : List String) : String :=
  idLoop id existing id 2 (existing.length + 1)

/-- The non-candidate arguments of `normalizeCaseStudyCandidate`. -/
structure NormalizeCtx where
  allowedUrls : List String
  fallbackDate : String
  mode : ScoutMode
  urlSnippetByUrl : List (String × String)
  grokStageUrls : List String
  deriving Repr, DecidableEq

def candDate (ctx : NormalizeCtx) (c : RawCandidate) : String :=
  coerceIsoDate c.date ctx.fallbackDate

def candTitle0 (c : RawCandidate) : String := optStr c.title

/-- `filteredSources`: the tiered social policy over the hygiene survivors. -/
def candFilteredSources (ctx : NormalizeCtx) (c : RawCandidate) : List ProofSource :=
  tierFiltered (hygieneSources c ctx.allowedUrls) ctx.grokStageUrls

/-- `finalSources`: the filtered sources with excerpts backfilled. -/
def candFinalSources (ctx : NormalizeCtx) (c : RawCandidate) : List ProofSource :=
  backfillExcerpts ctx.urlSnippetByUrl (candFilteredSources ctx c)

/-- `excerptWithDollar`: the first surviving source whose excerpt has a
dollar amount. -/
def candExcerptWithDollar (ctx : NormalizeCtx) (c : RawCandidate) : Option ProofSource :=
  (candFinalSources ctx c).find? excerptHasDollar

/-- `excerptDollarToken`. -/
def candExcerptDollarToken (ctx : NormalizeCtx) (c : RawCandidate) : String :=
  match candExcerptWithDollar ctx c with
  | some s =>
    (match s.excerpt with
     | some e => if e ≠ "" then extractFirstDollarToken e else ""
     | none => "")
  | none => ""

/-- `textMoneyToken`: shorthand money anywhere in title/summary/description. -/
def candTextMoneyToken (c : RawCandidate) : String :=
  extractFirstShorthandMoneyToken
    (candTitle0 c ++ " " ++ optStr c.summary ++ " " ++ optStr c.description)

/-- The funding/valuation-context rejection on the dollar-bearing excerpt. -/
def candFundingReject (ctx : NormalizeCtx) (c : RawCandidate) : Bool :=
  match candExcerptWithDollar ctx c with
  | some s =>
    (match s.excerpt with
     | some e => e ≠ "" && looksLikeFundingOrValuationContext e
     | none => false)
  | none => false

/-- Strict mode: reject without a verbatim dollar excerpt. -/
def candStrictReject (ctx : NormalizeCtx) (c : RawCandidate) : Bool :=
  !(ctx.mode = ScoutMode.speculation) && !foundExcerptTruthy (candExcerptWithDollar ctx c)

/-- Speculation mode: reject without any money-like signal. -/
def candNoMoneySignalReject (ctx : NormalizeCtx) (c : RawCandidate) : Bool :=
  (ctx.mode = ScoutMode.speculation) &&
    !(candExcerptDollarToken ctx c ≠ "" || candTextMoneyToken c ≠ "")

/-- Speculation mode without a dollar excerpt: require an allowed platform,
a Grok X source, or two distinct registrable domains. -/
def candSpecCorroborationReject (ctx : NormalizeCtx) (c : RawCandidate) : Bool :=
  (ctx.mode = ScoutMode.speculation) &&
  !foundExcerptTruthy (candExcerptWithDollar ctx c) &&
  (let finalSources := candFinalSources ctx c
   let uniqueDomains := uniqueCount (sourceDomains finalSources)
   let hasAllowedPlatform := finalSources.any (fun s => isAllowedPlatformUrl s.url)
   let hasGrokXSource :=
     finalSources.any (fun s => isXTwitterUrl s.url && ctx.grokStageUrls.contains s.url)
   !hasAllowedPlatform && !hasGrokXSource && decide (uniqueDomains < 2))

/-- The title after the money-token auto-injection. -/
def candTitle1 (ctx : NormalizeCtx) (c : RawCandidate) : String :=
  let title0 := candTitle0 c
  if !jsIncludes title0 "$" then
    (let token :=
      if candExcerptDollarToken ctx c ≠ "" then candExcerptDollarToken ctx c
      else candTextMoneyToken c
     if token ≠ "" then title0 ++ " — " ++ token else title0)
  else title0

/-- Status after the extractor value is read and speculation mode forces
`speculation`. -/
def candStatus1 (ctx : NormalizeCtx) (c : RawCandidate) : CsStatus :=
  if ctx.mode = ScoutMode.speculation then CsStatus.speculation
  else if c.status = some "verified" then CsStatus.verified
  else CsStatus.speculation

/-- Status after the 2-source requirement for `verified` (checked against
the hygiene survivors, before the tier filter). -/
def candStatus2 (ctx : NormalizeCtx) (c : RawCandidate) : CsStatus :=
  if candStatus1 ctx c = CsStatus.verified ∧ (hygieneSources c ctx.allowedUrls).length < 2 then
    CsStatus.speculation
  else candStatus1 ctx c

/-- Final status: speculation-mode items meeting the strict bar are promoted
back to `verified`. -/
def candStatus3 (ctx : NormalizeCtx) (c : RawCandidate) : CsStatus :=
  if ctx.mode = ScoutMode.speculation then
    (if (candFinalSources ctx c).length ≥ 2 ∧ foundExcerptTruthy (candExcerptWithDollar ctx c) then
      CsStatus.verified
    else candStatus2 ctx c)
  else candStatus2 ctx c

/-- Self-published-blog policy rejection. -/
def candSelfBlogReject (ctx : NormalizeCtx) (c : RawCandidate) : Bool :=
  let finalSources := candFinalSources ctx c
  (finalSources.any (fun s => likelySelfBlogUrl s.url)) &&
    (let uniqueDomains := uniqueCount (sourceDomains finalSources)
     decide (uniqueDomains < 2) ||
       (!(finalSources.any (fun s => isAllowedPlatformUrl s.url)) && decide (uniqueDomains < 2)))

/-- The base slug id derived before the collision loop. -/
def candBaseId (ctx : NormalizeCtx) (c : RawCandidate) : String :=
  derivedBaseIdFrom c.id (candDate ctx c) (candTitle1 ctx c)

/-- The case-study record returned on acceptance. -/
def acceptedCaseStudy (ctx : NormalizeCtx) (c : RawCandidate) (existingIds : List String) :
    CaseStudy :=
  { id := pickUniqueId (candBaseId ctx c) existingIds
    date := candDate ctx c
    title := candTitle1 ctx c
    summary := optStr c.summary
    description := optStr c.description
    profitMechanisms :=
      if (cleanStrList c.profitMechanisms).isEmpty then ["Unspecified (see proof sources)"]
      else cleanStrList c.profitMechanisms
    tags := cleanStrList c.tags
    proofSources := candFinalSources ctx c
    status := candStatus3 ctx c }

/-- The body of `normalizeCaseStudyCandidate` for an object-typed candidate:
the checks run in the source's order; every rejection leaves the id set
unchanged. -/
def normalizeCand (ctx : NormalizeCtx) (c : RawCandidate) (existingIds : List String) :
    Option CaseStudy × List String :=
  (if candTitle0 c = "" ∨ optStr c.summary = "" ∨ optStr c.description = "" then
      (none, existingIds)
    else if (hygieneSources c ctx.allowedUrls).length < 1 then (none, existingIds)
    else if (candFilteredSources ctx c).length < 1 then (none, existingIds)
    else if !survivorsHaveAnchor (candFilteredSources ctx c) ctx.grokStageUrls then
      (none, existingIds)
    else if candFundingReject ctx c then (none, existingIds)
    else if candStrictReject ctx c then (none, existingIds)
    else if candNoMoneySignalReject ctx c then (none, existingIds)
    else if candSpecCorroborationReject ctx c then (none, existingIds)
    else if !jsIncludes (candTitle1 ctx c) "$" then (none, existingIds)
    else if candSelfBlogReject ctx c then (none, existingIds)
    else
      (some (acceptedCaseStudy ctx c existingIds),
       pickUniqueId (candBaseId ctx c) existingIds :: existingIds))

/-- `normalizeCaseStudyCandidate`: the candidate validator/normalizer.
Returns the accepted case study (or `none` for a rejection) together with the
updated `existingIds` set (the JS function mutates the set in place).
A `null`/non-object candidate is rejected straight away. -/
def normalizeCaseStudyCandidate
    (cs : Option RawCandidate) (ctx : NormalizeCtx) (existingIds : List String) :
    Option CaseStudy × List String :=
  match cs with
  | none => (none, existingIds)
  | some c => normalizeCand ctx c existingIds

/-! ### Research stages and the scout job schema (`blobScoutAsync.ts`, `scoutConfig.ts`) -/

inductive ResearchProvider
  | perplexity
  | grok
  | youtube
  deriving Repr, DecidableEq

structure ResearchStage where
  stageId : String
  provider : ResearchProvider
  label : String
  queryFocus : String
  priority : Nat
  enabled : Bool
  deriving Repr, DecidableEq

/-- The declared default research stages, in priority order. -/
def DEFAULT_RESEARCH_STAGES : List ResearchStage :=
  [ { stageId := "grok-x-search", provider := .grok, label := "X/Twitter Indies",
      queryFocus := "AI agent MRR revenue indie maker solopreneur", priority := 1, enabled := true },
    { stageId := "youtube-podcasts", provider := .youtube, label := "Podcast Interviews",
      queryFocus := "AI agent revenue interview indie hacker podcast MRR", priority := 2, enabled := true },
    { stageId := "hackathon", provider := .perplexity, label := "Contest Winners",
      queryFocus := "hackathon winner prize bounty AI agent autonomous", priority := 3, enabled := true },
    { stageId := "indie-revenue", provider := .perplexity, label := "Indie Makers",
      queryFocus := "indie maker revenue milestone MRR AI agent solo founder", priority := 4, enabled := true },
    { stageId := "youtube-case-study", provider := .perplexity, label := "Creator Content",
      queryFocus := "AI agent case study tutorial revenue YouTube", priority := 5, enabled := true },
    { stageId := "news-roundup", provider := .perplexity, label := "Tech News",
      queryFocus := "autonomous agent revenue news profit AI", priority := 6, enabled := true } ]

inductive StageStatus
  | pending
  | in_progress
  | completed
  | failed
  deriving Repr, DecidableEq

structure StageSource where
  title : String
  url : String
  date : Option String
  snippet : Option String
  stageId : String
  deriving Repr, DecidableEq

structure PendingStage where
  stageId : String
  provider : ResearchProvider
  requestId : Option String
  status : StageStatus
  query : String
  sources : Option (List StageSource)
  summary : Option String
  error : Option String
  completedAt : Option String
  deriving Repr, DecidableEq

structure PendingScoutJobV2 where
  createdAt : String
  lastFinalizeAt : Option String
  finalizeAttempts : Option Nat
  runId : String
  withinDays : Nat
  find : Nat
  searchLimit : Nat
  mode : Option ScoutMode
  stages : List PendingStage
  deriving Repr, DecidableEq

structure PendingPerplexityAsyncJobV1 where
  createdAt : String
  lastFinalizeAt : Option String
  finalizeAttempts : Option Nat
  runId : String
  requestId : String
  query : String
  withinDays : Nat
  find : Nat
  searchLimit : Nat
  mode : Option ScoutMode
  deriving Repr, DecidableEq

/-- The tagged union persisted in the blob store (`version` discriminates). -/
inductive PendingScoutJob
  | v1 (job : PendingPerplexityAsyncJobV1)
  | v2 (job : PendingScoutJobV2)
  deriving Repr, DecidableEq

/-- `convertV1ToV2`: upgrade a legacy single-request job to the stage shape. -/
def convertV1ToV2 (j : PendingPerplexityAsyncJobV1) : PendingScoutJobV2 :=
  { createdAt := j.createdAt
    lastFinalizeAt := j.lastFinalizeAt
    finalizeAttempts := j.finalizeAttempts
    runId := j.runId
    withinDays := j.withinDays
    find := j.find
    searchLimit := j.searchLimit
    mode := j.mode
    stages := [ { stageId := "perplexity-legacy", provider := .perplexity,
                  requestId := some j.requestId, status := .pending, query := j.query,
                  sources := none, summary := none, error := none, completedAt := none } ] }

/-! ### Source/summary aggregation -/

/-- The hard-coded stage order used by `aggregateStageSources`. -/
def STAGE_PRIORITY_ORDER : List String :=
  ["grok-x-search", "youtube-podcasts", "hackathon", "indie-revenue", "youtube-case-study", "news-roundup"]

/-- `order.indexOf(stageId)`, with the JS `-1` mapped to `999`. -/
def stageOrderIdx (stageId : String) : Nat :=
  match STAGE_PRIORITY_ORDER.findIdx? (fun s => s = stageId) with
  | some i => i
  | none => 999

/-- The comparator `(a, b) => aIdx - bIdx`, as the ordering it induces. -/
def stageLE (a b : PendingStage) : Prop :=
  stageOrderIdx a.stageId ≤ stageOrderIdx b.stageId

instance : DecidableRel stageLE := fun a b => Nat.decLe _ _

instance : IsTotal PendingStage stageLE := ⟨fun a b => Nat.le_total _ _⟩

instance : IsTrans PendingStage stageLE := ⟨fun _ _ _ => Nat.le_trans⟩

/-- The stable sort by priority index performed before deduplication
(JS `Array.prototype.sort` is stable; a stable sort by a total preorder is
unique, modelled by insertion sort). -/
def sortStagesByPriority (stages : List PendingStage) : List PendingStage :=
  List.insertionSort stageLE stages

/-- Sources contributed by one stage (`completed` with a defined array). -/
def stageContribution (s : PendingStage) : List StageSource :=
  match s.sources with
  | some l => if s.status = StageStatus.completed then l else []
  | none => []

def dedupFirstByUrl : List StageSource → List String → List StageSource
  | [], _ => []
  | r :: rest, seen =>
    if seen.contains r.url then dedupFirstByUrl rest seen
    else r :: dedupFirstByUrl rest (r.url :: seen)

/-- `aggregateStageSources`: all completed stages' sources in priority order,
deduplicated by URL with first-writer-wins. -/
def aggregateStageSources (stages : List PendingStage) : List StageSource :=
  dedupFirstByUrl ((sortStagesByPriority stages).flatMap stageContribution) []

/-- A stage contributes a summary when completed with a non-empty summary. -/
def summaryContrib (s : PendingStage) : Bool :=
  s.status = StageStatus.completed && s.summary.getD "" ≠ ""

def summaryLabel (s : PendingStage) : String :=
  "--- " ++ s.stageId ++ " ---\n" ++ s.summary.getD ""

def summariesList : List PendingStage → List String
  | [] => []
  | s :: rest =>
    if summaryContrib s then summaryLabel s :: summariesList rest else summariesList rest

/-- `aggregateStageSummaries`: labeled summaries joined with blank lines,
iterating the stages array in its given order. -/
def aggregateStageSummaries (stages : List PendingStage) : String :=
  joinWith "\n\n" (summariesList stages)

/-! ### Polling a Perplexity stage (finalize route) -/

inductive PplxJobStatus
  | CREATED
  | IN_PROGRESS
  | COMPLETED
  | FAILED
  deriving Repr, DecidableEq

structure PplxSearchResult where
  title : Option String
  url : Option String
  date : Option String
  snippet : Option String
  deriving Repr, DecidableEq

structure PplxChoiceMessage where
  content : Option String
  deriving Repr, DecidableEq

structure PplxChoice where
  message : Option PplxChoiceMessage
  deriving Repr, DecidableEq

structure PplxResponse where
  search_results : Option (List PplxSearchResult)
  choices : Option (List PplxChoice)
  deriving Repr, DecidableEq

structure PerplexityAsyncJob where
  status : PplxJobStatus
  error_message : Option String
  response : Option PplxResponse
  deriving Repr, DecidableEq

/-- `resp?.choices?.[0]?.message?.content ?? ""`. -/
def pplxContent (resp : PplxResponse) : String :=
  match resp.choices with
  | some (ch :: _) =>
    (match ch.message with
     | some m => m.content.getD ""
     | none => "")
  | _ => ""

/-- Search results with a truthy `url`, mapped to stage sources. -/
def pplxSources (resp : PplxResponse) (stageId : String) : List StageSource :=
  ((resp.search_results.getD []).filter (fun r => r.url.getD "" ≠ "")).map (fun r =>
    { title := jsTrim (r.title.getD "")
      url := jsTrim (r.url.getD "")
      date := (match r.date with | some d => if d ≠ "" then some (jsTrim d) else none | none => none)
      snippet := (match r.snippet with | some d => if d ≠ "" then some (jsTrim d) else none | none => none)
      stageId := stageId })

/-- `pollPerplexityStage`.  The remote fetch is an explicit input: `.error`
models a thrown/failed request (the `catch` branch). -/
def pollPerplexityStage (stage : PendingStage)
    (fetchResult : Except String PerplexityAsyncJob) (now : String) : PendingStage :=
  if stage.provider ≠ ResearchProvider.perplexity ∨ stage.requestId = none then stage
  else if stage.status = StageStatus.completed ∨ stage.status = StageStatus.failed then stage
  else
    match fetchResult with
    | .error msg =>
      { stage with status := .failed, error := some msg, completedAt := some now }
    | .ok job =>
      if job.status = PplxJobStatus.FAILED then
        { stage with status := .failed, error := some (job.error_message.getD "Unknown error"),
                     completedAt := some now }
      else if job.status ≠ PplxJobStatus.COMPLETED then
        { stage with status := .in_progress }
      else
        let resp := job.response.getD { search_results := none, choices := none }
        { stage with status := .completed
                     sources := some (pplxSources resp stage.stageId)
                     summary := some (pplxContent resp)
                     completedAt := some now }

/-! ### Stage creation in the start route -/

structure GrokSearchSource where
  title : String
  url : String
  date : Option String
  snippet : Option String
  handle : Option String
  deriving Repr, DecidableEq

/-- A Grok stage is created already terminal: `completed` with its sources
(mapped to stage sources) on success, `failed` with the error otherwise. -/
def grokStageFromOutcome (stageId : String) (query : String)
    (outcome : Except String (List GrokSearchSource × String)) (now : String) : PendingStage :=
  match outcome with
  | .ok (srcs, summary) =>
    { stageId := stageId, provider := .grok, requestId := none, status := .completed,
      query := query,
      sources := some (srcs.map (fun s =>
        { title := s.title, url := s.url, date := s.date, snippet := s.snippet, stageId := stageId })),
      summary := some summary, error := none, completedAt := some now }
  | .error msg =>
    { stageId := stageId, provider := .grok, requestId := none, status := .failed,
      query := query, sources := none, summary := none, error := some msg, completedAt := none }

/-- A Perplexity stage starts `pending` with its remote request id, or is
created `failed` when the remote start call threw. -/
def perplexityStageFromOutcome (stageId : String) (query : String)
    (outcome : Except String String) : PendingStage :=
  match outcome with
  | .ok requestId =>
    { stageId := stageId, provider := .perplexity, requestId := some requestId,
      status := .pending, query := query, sources := none, summary := none,
      error := none, completedAt := none }
  | .error msg =>
    { stageId := stageId, provider := .perplexity, requestId := none, status := .failed,
      query := query, sources := none, summary := none, error := some msg, completedAt := none }

/-- The start route's stage list: synchronous Grok stages first, then the
asynchronous Perplexity starts, each with its own outcome. -/
def startStages (selected : List ResearchStage)
    (grokOut : Nat → Except String (List GrokSearchSource × String))
    (pplxOut : Nat → Except String String)
    (grokQuery : String) (pplxQuery : String → String) (now : String) : List PendingStage :=
  ((selected.filter (fun s => s.provider = ResearchProvider.grok)).mapIdx
      (fun i st => grokStageFromOutcome st.stageId grokQuery (grokOut i) now)) ++
  ((selected.filter (fun s => s.provider = ResearchProvider.perplexity)).mapIdx
      (fun i st => perplexityStageFromOutcome st.stageId (pplxQuery st.stageId) (pplxOut i)))

/-! ### The finalize route (V2 scout job) -/

structure FinalizeStageView where
  stageId : String
  provider : ResearchProvider
  status : StageStatus
  sourceCount : Nat
  deriving Repr, DecidableEq

inductive FinalizeResponse
  | blocked (runId : String) (finalizeAttempts : Nat)
  | stillPending (runId : String) (stages : List FinalizeStageView)
  | ready (sources : List StageSource) (summary : String) (runId : String)
  deriving Repr, DecidableEq

structure FinalizeResult where
  response : FinalizeResponse
  /-- The successive job states persisted by `updateLatestScoutJob`. -/
  writes : List PendingScoutJobV2
  jobAfter : PendingScoutJobV2
  /-- Number of `pollPerplexityStage` invocations performed. -/
  pollCount : Nat
  deriving Repr, DecidableEq

def stageView (s : PendingStage) : FinalizeStageView :=
  { stageId := s.stageId, provider := s.provider, status := s.status,
    sourceCount := (s.sources.getD []).length }

def stageNonTerminal (s : PendingStage) : Bool :=
  s.status = StageStatus.pending || s.status = StageStatus.in_progress

/-- Read-side upgrade: a V1 job is converted, a V2 job is used directly. -/
def rawJobToV2 (raw : PendingScoutJob) : PendingScoutJobV2 :=
  match raw with
  | .v1 j => convertV1ToV2 j
  | .v2 j => j

/-- The finalize GET handler for the multi-stage scout job, with the remote
polls supplied by `oracle pass index`.  A V1 job is upgraded first; a job
whose attempt budget is spent is reported blocked with no polling and no
write; otherwise the attempt counter is bumped before the two poll passes. -/
def finalizeScoutJob (raw : PendingScoutJob)
    (oracle : Nat → Nat → Except String PerplexityAsyncJob) (now : String) : FinalizeResult :=
  let job := rawJobToV2 raw
  let attempts := job.finalizeAttempts.getD 0
  if attempts ≥ 2 then
    { response := .blocked job.runId attempts, writes := [], jobAfter := job, pollCount := 0 }
  else
    let job1 := { job with finalizeAttempts := some (attempts + 1), lastFinalizeAt := some now }
    let poll1 := fun (s : PendingStage) =>
      s.provider = ResearchProvider.perplexity && s.status = StageStatus.pending
    let stages1 := job1.stages.mapIdx (fun i s =>
      if poll1 s then pollPerplexityStage s (oracle 0 i) now else s)
    let polled1 := (job1.stages.filter poll1).length
    let job2 := { job1 with stages := stages1 }
    if (stages1.filter stageNonTerminal).length > 0 then
      let poll2 := fun (s : PendingStage) =>
        s.provider = ResearchProvider.perplexity && stageNonTerminal s
      let stages2 := stages1.mapIdx (fun i s =>
        if poll2 s then pollPerplexityStage s (oracle 1 i) now else s)
      let polled2 := (stages1.filter poll2).length
      let job3 := { job2 with stages := stages2 }
      if (stages2.filter stageNonTerminal).length > 0 then
        { response := .stillPending job3.runId (stages2.map stageView),
          writes := [job2, job3], jobAfter := job3, pollCount := polled1 + polled2 }
      else
        { response := .ready (aggregateStageSources stages2) (aggregateStageSummaries stages2) job3.runId,
          writes := [job2, job3], jobAfter := job3, pollCount := polled1 + polled2 }
    else
      { response := .ready (aggregateStageSources stages1) (aggregateStageSummaries stages1) job2.runId,
        writes := [job2], jobAfter := job2, pollCount := polled1 }

/-! ### Versioned blob store (`blobCaseStudies.ts`) -/

structure LiveManifestV1 where
  updatedAt : String
  runId : String
  count : Nat
  snapshotUrl : String
  addedIds : List String
  deriving Repr, DecidableEq

structure LatestPointer where
  manifestUrl : String
  snapshotUrl : String
  runId : String
  updatedAt : String
  deriving Repr, DecidableEq

/-- The value stored in one blob.  Payload kinds keep JSON round-tripping
exact; audit payloads are opaque. -/
inductive BlobValue
  | caseStudies (items : List CaseStudy)
  | manifest (m : LiveManifestV1)
  | pointer (p : LatestPointer)
  | rawJson
  deriving Repr, DecidableEq

/-- The blob store, newest write first; a read sees the newest value. -/
def BlobStore := List (String × BlobValue)

/-- `put`: fails on an existing path unless `allowOverwrite`; the returned
URL identifies the written blob. -/
def blobPut (store : BlobStore) (path : String) (v : BlobValue) (allowOverwrite : Bool) :
    Except String (BlobStore × String) :=
  if !allowOverwrite && (List.lookup path store).isSome then
    .error ("path already exists: " ++ path)
  else .ok ((path, v) :: store, path)

def blobRead (store : BlobStore) (url : String) : Option BlobValue :=
  List.lookup url store

def hexDigitChar (n : Nat) : Char := "0123456789ABCDEF".data.getD n '0'

/-- `encodeURIComponent`, for the one-byte code points the run ids use. -/
def encodeURIComponent (s : String) : String :=
  String.mk (s.data.flatMap (fun c =>
    if c.isAlpha || c.isDigit || c = '-' || c = '_' || c = '.' || c = '!' || c = '~' ||
       c = '*' || c.toNat = 39 || c = '(' || c = ')' then [c]
    else ['%', hexDigitChar (c.toNat / 16 % 16), hexDigitChar (c.toNat % 16)]))

def LIVE_MANIFEST_DIR : String := "case-studies/live-manifest/"

def LATEST_POINTER_PATH : String := "case-studies/latest.json"

structure WriteRunArtifacts where
  runId : String
  all : List CaseStudy
  added : List CaseStudy
  /-- Presence of the optional raw audit payloads. -/
  perplexityRaw : Bool
  claudeRaw : Bool
  runLog : Bool
  deriving Repr, DecidableEq

structure PublishResult where
  store : BlobStore
  snapshotUrl : String
  manifestUrl : String
  manifest : LiveManifestV1

/-- The best-effort per-run audit writes (`Promise.allSettled`): raw provider
payloads, run log, added-items list; all with `allowOverwrite`, so none can
fail. -/
def auditStores (store1 : BlobStore) (a : WriteRunArtifacts) : BlobStore :=
  let auditBase := "weekly-scout/" ++ encodeURIComponent a.runId
  let store2 := if a.perplexityRaw then (auditBase ++ "/perplexity.json", BlobValue.rawJson) :: store1 else store1
  let store3 := if a.claudeRaw then (auditBase ++ "/claude.json", BlobValue.rawJson) :: store2 else store2
  let store4 := if a.runLog then (auditBase ++ "/run.json", BlobValue.rawJson) :: store3 else store3
  if a.added.length ≠ 0 then (auditBase ++ "/added.json", BlobValue.caseStudies a.added) :: store4 else store4

/-- `writeLiveCaseStudiesToBlob`: immutable snapshot first, best-effort audit
blobs, immutable per-run manifest, then the mutable latest pointer. -/
def writeLiveCaseStudiesToBlob (store : BlobStore) (a : WriteRunArtifacts) (now : String) :
    Except String PublishResult :=
  let snapshotPath := "case-studies/snapshots/" ++ encodeURIComponent a.runId ++ ".json"
  match blobPut store snapshotPath (.caseStudies a.all) false with
  | .error e => .error e
  | .ok (store1, snapshotUrl) =>
    let store5 := auditStores store1 a
    let manifest : LiveManifestV1 :=
      { updatedAt := now, runId := a.runId, count := a.all.length,
        snapshotUrl := snapshotUrl, addedIds := a.added.map (fun x => x.id) }
    let manifestPath := LIVE_MANIFEST_DIR ++ encodeURIComponent a.runId ++ ".json"
    match blobPut store5 manifestPath (.manifest manifest) false with
    | .error e => .error e
    | .ok (store6, manifestUrl) =>
      let pointer : LatestPointer :=
        { manifestUrl := manifestUrl, snapshotUrl := snapshotUrl,
          runId := a.runId, updatedAt := now }
      match blobPut store6 LATEST_POINTER_PATH (.pointer pointer) true with
      | .error e => .error e
      | .ok (store7, _) =>
        .ok { store := store7, snapshotUrl := snapshotUrl, manifestUrl := manifestUrl,
              manifest := manifest }

/-- Read a manifest blob at a known URL (`fetchJson<LiveManifestV1>`). -/
def readManifestAt (store : BlobStore) (url : String) : Option LiveManifestV1 :=
  match blobRead store url with
  | some (.manifest m) => some m
  | _ => none

/-- Read a dataset blob at a known URL (`fetchJson<CaseStudy[]>`). -/
def readCaseStudiesAt (store : BlobStore) (url : String) : Option (List CaseStudy) :=
  match blobRead store url with
  | some (.caseStudies l) => some l
  | _ => none

/-- The latest-pointer path to the current manifest URL. -/
def getLatestManifestUrl (store : BlobStore) : Option String :=
  match blobRead store LATEST_POINTER_PATH with
  | some (.pointer p) => some p.manifestUrl
  | _ => none

def readLiveManifestFromBlob (store : BlobStore) : Option LiveManifestV1 :=
  match getLatestManifestUrl store with
  | some url => readManifestAt store url
  | none => none

def readLiveCaseStudiesFromBlob (store : BlobStore) : Option (List CaseStudy) :=
  match readLiveManifestFromBlob store with
  | some m => readCaseStudiesAt store m.snapshotUrl
  | none => none

/-! ## Supporting lemmas -/

set_option maxHeartbeats 2000000

lemma normalizeCand_someEq (ctx : NormalizeCtx) (c : RawCandidate) (S : List String) :
    normalizeCaseStudyCandidate (some c) ctx S = normalizeCand ctx c S := rfl

/-- Inversion of the validator on acceptance: the output record and id set
have the computed shape, and the gates that the accept branch passed hold. -/
lemma normalize_some_inv (ctx : NormalizeCtx) (c : RawCandidate) (S : List String)
    (out : CaseStudy) (outIds : List String)
    (h : normalizeCand ctx c S = (some out, outIds)) :
    out = acceptedCaseStudy ctx c S ∧
    outIds = out.id :: S ∧
    jsIncludes (candTitle1 ctx c) "$" = true ∧
    candStrictReject ctx c = false ∧
    1 ≤ (candFilteredSources ctx c).length := by
  unfold normalizeCand at h
  split_ifs at h with g1 g2 g3 g4 g5 g6 g7 g8 g9 g10
  · exact absurd h (by simp)
  · exact absurd h (by simp)
  · exact absurd h (by simp)
  · exact absurd h (by simp)
  · exact absurd h (by simp)
  · exact absurd h (by simp)
  · exact absurd h (by simp)
  · exact absurd h (by simp)
  · exact absurd h (by simp)
  · exact absurd h (by simp)
  · have ho : some (acceptedCaseStudy ctx c S) = some out := congrArg Prod.fst h
    have hi : pickUniqueId (candBaseId ctx c) S :: S = outIds := congrArg Prod.snd h
    have ho2 := Option.some.inj ho
    refine ⟨ho2.symm, ?_, ?_, ?_, ?_⟩
    · rw [← hi, ← ho2]
      rfl
    · simpa using g9
    · simpa using g6
    · omega

lemma candFinalSources_length (ctx : NormalizeCtx) (c : RawCandidate) :
    (candFinalSources ctx c).length = (candFilteredSources ctx c).length := by
  simp [candFinalSources, backfillExcerpts]

lemma candFilteredSources_le (ctx : NormalizeCtx) (c : RawCandidate) :
    (candFilteredSources ctx c).length ≤ (hygieneSources c ctx.allowedUrls).length := by
  unfold candFilteredSources tierFiltered
  exact List.length_filter_le _ _

/-- A truthy `excerptWithDollar` yields a surviving source whose excerpt
contains a dollar amount. -/
lemma dollarExcerpt_of_truthy (ctx : NormalizeCtx) (c : RawCandidate)
    (h : foundExcerptTruthy (candExcerptWithDollar ctx c) = true) :
    ∃ s ∈ candFinalSources ctx c, ∃ e, s.excerpt = some e ∧ hasDollarAmount e = true := by
  unfold foundExcerptTruthy at h
  cases hfind : candExcerptWithDollar ctx c with
  | none => rw [hfind] at h; exact absurd h (by simp)
  | some s =>
    have hmem : s ∈ candFinalSources ctx c := List.mem_of_find?_eq_some hfind
    have hp : excerptHasDollar s = true := List.find?_some hfind
    unfold excerptHasDollar at hp
    cases hex : s.excerpt with
    | none => rw [hex] at hp; exact absurd hp (by simp)
    | some e =>
      rw [hex] at hp
      exact ⟨s, hmem, e, hex, hp⟩

lemma string_append_right_ne (b s : String) (hs : s.data ≠ []) : b ++ s ≠ b := by
  intro h
  have h2 : b.data ++ s.data = b.data ++ [] := by
    rw [← String.data_append, h, List.append_nil]
  exact hs (List.append_cancel_left h2)

lemma pickUniqueId_fresh (b : String) (S : List String) (h : S.contains b = false) :
    pickUniqueId b S = b := by
  have hm : b ∉ S := by simpa using h
  unfold pickUniqueId
  show idLoop b S b 2 (S.length + 1) = b
  simp [idLoop, hm]

lemma pickUniqueId_collision (b : String) (S : List String)
    (h2 : S.contains (b ++ "-2") = false) :
    pickUniqueId b (b :: S) = b ++ "-2" := by
  have hne : (b ++ "-2") ≠ b := string_append_right_ne b "-2" (by decide)
  have h2m : (b ++ "-2") ∉ S := by simpa using h2
  have hc2 : (b ++ "-2") ∉ (b :: S) := by
    intro hmem
    rcases List.mem_cons.mp hmem with hh | hh
    · exact hne hh
    · exact h2m hh
  have ht : b ++ "-" ++ toString 2 = b ++ "-2" := by
    rw [String.append_assoc]
    congr 1
  unfold pickUniqueId
  show idLoop b (b :: S) b 2 ((b :: S).length + 1) = b ++ "-2"
  rw [List.length_cons]
  simp [idLoop, ht, hc2, List.mem_cons]

/-! ## Claim theorems -/

/-- Counterexample input for C1: a strict-mode candidate marked `verified`
with two hygiene-surviving sources of which the Tier-3 one is dropped, and a
title carrying `$` signs but no dollar amount. -/
def cexC1Ctx : NormalizeCtx :=
  { allowedUrls := ["https://github.com/a/b", "https://facebook.com/x"]
    fallbackDate := "2026-01-01", mode := ScoutMode.strict
    urlSnippetByUrl := [], grokStageUrls := [] }

def cexC1Cand : RawCandidate :=
  { id := none, date := none
    title := some "Making $$$ with AI"
    summary := some "s", description := some "d"
    profitMechanisms := none, tags := none
    proofSources := some
      [ { label := some "GitHub", url := some "https://github.com/a/b", kind := none,
          excerpt := some "hit $2,300 MRR last month" },
        { label := some "FB", url := some "https://facebook.com/x", kind := none,
          excerpt := none } ]
    status := some "verified" }

/-- C1 (counterexample): the validator accepts a case study whose status is
`verified` with only one returned proof source (the Tier-3 source was dropped
after the 2-source check), and whose title contains `$` but no currency
amount token — contradicting both parts of the claim as stated. -/
theorem normalize_verified_single_source_counterexample :
    ((normalizeCaseStudyCandidate (some cexC1Cand) cexC1Ctx []).1.map
        (fun out => (out.status, out.proofSources.length, hasDollarAmount out.title))) =
      some (CsStatus.verified, 1, false) := by decide

/-- C1 (amended): every accepted case study's title contains the character
`$` (a full currency token only when auto-injected); `verified` status
implies the hygiene-filtered source list (before the tier filter) had length
at least 2, the returned list is non-empty, and some returned source carries
an excerpt with a currency token. -/
theorem normalize_title_and_verified_money_invariants
    (ctx : NormalizeCtx) (c : RawCandidate) (S : List String)
    (out : CaseStudy) (outIds : List String)
    (h : normalizeCaseStudyCandidate (some c) ctx S = (some out, outIds)) :
    jsIncludes out.title "$" = true ∧
    (out.status = CsStatus.verified →
      2 ≤ (hygieneSources c ctx.allowedUrls).length ∧
      out.proofSources ≠ [] ∧
      ∃ s ∈ out.proofSources, ∃ e, s.excerpt = some e ∧ hasDollarAmount e = true) := by
  rw [normalizeCand_someEq] at h
  obtain ⟨he, hi, htitle, hstrict, hflt⟩ := normalize_some_inv _ _ _ _ _ h
  subst he
  refine ⟨htitle, ?_⟩
  intro hv
  have hv3 : candStatus3 ctx c = CsStatus.verified := hv
  have hlenfinal := candFinalSources_length ctx c
  have hle := candFilteredSources_le ctx c
  unfold candStatus3 at hv3
  split_ifs at hv3 with m1 m2
  · obtain ⟨hfin2, htruthy⟩ := m2
    refine ⟨by omega, ?_, dollarExcerpt_of_truthy ctx c htruthy⟩
    have hpos : 0 < (candFinalSources ctx c).length := by omega
    exact (List.length_pos.mp hpos)
  · exfalso
    unfold candStatus2 candStatus1 at hv3
    simp [m1] at hv3
  · have hyg2 : 2 ≤ (hygieneSources c ctx.allowedUrls).length := by
      unfold candStatus2 at hv3
      split_ifs at hv3 with k
      all_goals first
        | exact absurd hv3 (by simp)
        | exact Nat.le_of_not_lt (fun hlt => k ⟨hv3, hlt⟩)
    have htruthy : foundExcerptTruthy (candExcerptWithDollar ctx c) = true := by
      unfold candStrictReject at hstrict
      simpa [m1] using hstrict
    refine ⟨hyg2, ?_, dollarExcerpt_of_truthy ctx c htruthy⟩
    have hpos : 0 < (candFinalSources ctx c).length := by omega
    exact (List.length_pos.mp hpos)

/-- Shared accepted sample used by witnesses: a strict-mode candidate with
one Tier-1 source and a dollar excerpt. -/
def wCtx : NormalizeCtx :=
  { allowedUrls := ["https://github.com/a/b"]
    fallbackDate := "2026-01-01", mode := ScoutMode.strict
    urlSnippetByUrl := [], grokStageUrls := [] }

def wCand : RawCandidate :=
  { id := none, date := none
    title := some "Agent hits $5k MRR"
    summary := some "s", description := some "d"
    profitMechanisms := none, tags := none
    proofSources := some
      [ { label := some "GitHub", url := some "https://github.com/a/b", kind := none,
          excerpt := some "hit $2,300 MRR last month" } ]
    status := none }

def wOut : CaseStudy := acceptedCaseStudy wCtx wCand []

theorem normalize_title_and_verified_money_invariants_witness :
    jsIncludes wOut.title "$" = true ∧
    (wOut.status = CsStatus.verified →
      2 ≤ (hygieneSources wCand wCtx.allowedUrls).length ∧
      wOut.proofSources ≠ [] ∧
      ∃ s ∈ wOut.proofSources, ∃ e, s.excerpt = some e ∧ hasDollarAmount e = true) :=
  normalize_title_and_verified_money_invariants wCtx wCand [] wOut [wOut.id] (by decide)

/-- C6: a candidate whose hygiene-surviving sources are all Tier-2, none of
them Tier-1 and none auto-corroborated by the Grok X stage, is rejected. -/
theorem tier2_only_candidate_rejected
    (ctx : NormalizeCtx) (c : RawCandidate) (S : List String)
    (hall : ∀ s ∈ hygieneSources c ctx.allowedUrls,
      isTier2Url s.url = true ∧ isTier1Url s.url = false ∧
      (isXTwitterUrl s.url && ctx.grokStageUrls.contains s.url) = false) :
    normalizeCaseStudyCandidate (some c) ctx S = (none, S) := by
  rw [normalizeCand_someEq]
  have hempty : candFilteredSources ctx c = [] := by
    unfold candFilteredSources tierFiltered
    rw [List.filter_eq_nil_iff]
    intro s hs
    obtain ⟨ht2, ht1, hgk⟩ := hall s hs
    unfold tierFilterKeep
    split_ifs with a1
    · simp
    · unfold hasTier2Corroboration
      simp only [Bool.or_eq_true, List.any_eq_true, not_or]
      refine ⟨?_, ?_⟩
      · intro hx
        rw [hx] at hgk
        simpa using hgk
      · rintro ⟨source, hsrc, hcond⟩
        obtain ⟨hs2, hs1, -⟩ := hall source hsrc
        split_ifs at hcond with heq
        rw [hs1, hs2] at hcond
        simp at hcond
  unfold normalizeCand
  split_ifs with g1 g2 g3 g4 g5 g6 g7 g8 g9 g10
  all_goals first
    | rfl
    | exact absurd (by simp [hempty] : (candFilteredSources ctx c).length < 1) g3

def w6Ctx : NormalizeCtx :=
  { allowedUrls := ["https://reddit.com/r/a", "https://reddit.com/r/b"]
    fallbackDate := "2026-01-01", mode := ScoutMode.speculation
    urlSnippetByUrl := [], grokStageUrls := [] }

def w6Cand : RawCandidate :=
  { id := none, date := none
    title := some "Agent hits $5k"
    summary := some "s", description := some "d"
    profitMechanisms := none, tags := none
    proofSources := some
      [ { label := some "r1", url := some "https://reddit.com/r/a", kind := none,
          excerpt := some "made $5k" },
        { label := some "r2", url := some "https://reddit.com/r/b", kind := none,
          excerpt := none } ]
    status := none }

theorem tier2_only_candidate_rejected_witness :
    normalizeCaseStudyCandidate (some w6Cand) w6Ctx [] = (none, []) :=
  tier2_only_candidate_rejected w6Ctx w6Cand [] (by decide)

/-- C7: when the first surviving source whose excerpt carries a dollar
amount sits in a funding/valuation context (for example `Series A`), the
candidate is rejected in every mode. -/
theorem funding_context_excerpt_rejected
    (ctx : NormalizeCtx) (c : RawCandidate) (S : List String)
    (s : ProofSource) (e : String)
    (hfind : candExcerptWithDollar ctx c = some s)
    (hex : s.excerpt = some e) (hne : e ≠ "")
    (hfund : looksLikeFundingOrValuationContext e = true) :
    normalizeCaseStudyCandidate (some c) ctx S = (none, S) := by
  rw [normalizeCand_someEq]
  have hrej : candFundingReject ctx c = true := by
    simp [candFundingReject, hfind, hex, hne, hfund]
  unfold normalizeCand
  split_ifs with g1 g2 g3 g4 g5 g6 g7 g8 g9 g10
  all_goals first
    | rfl
    | exact absurd hrej g5

def w7Ctx : NormalizeCtx :=
  { allowedUrls := ["https://github.com/a/b"]
    fallbackDate := "2026-01-01", mode := ScoutMode.strict
    urlSnippetByUrl := [], grokStageUrls := [] }

def w7Cand : RawCandidate :=
  { id := none, date := none
    title := some "Agent lands $2M"
    summary := some "s", description := some "d"
    profitMechanisms := none, tags := none
    proofSources := some
      [ { label := some "GitHub", url := some "https://github.com/a/b", kind := none,
          excerpt := some "Raised $2M in a Series A round" } ]
    status := none }

theorem funding_context_excerpt_rejected_witness :
    normalizeCaseStudyCandidate (some w7Cand) w7Ctx [] = (none, []) :=
  funding_context_excerpt_rejected w7Ctx w7Cand []
    { label := "GitHub", url := "https://github.com/a/b", kind := none,
      excerpt := some "Raised $2M in a Series A round" }
    "Raised $2M in a Series A round" (by decide) (by decide) (by decide) (by decide)

/-- C8: two candidates of one batch resolving to the same base slug id: the
first accepted one keeps the base id, the second receives the `-2` suffix,
and both chosen ids are registered in the id set. -/
theorem slug_collision_suffix_assignment
    (ctx : NormalizeCtx) (c1 c2 : RawCandidate) (S ids1 ids2 : List String)
    (out1 out2 : CaseStudy) (b : String)
    (h1 : normalizeCaseStudyCandidate (some c1) ctx S = (some out1, ids1))
    (h2 : normalizeCaseStudyCandidate (some c2) ctx ids1 = (some out2, ids2))
    (hb1 : candBaseId ctx c1 = b) (hb2 : candBaseId ctx c2 = b)
    (hS : S.contains b = false) (hS2 : S.contains (b ++ "-2") = false) :
    out1.id = b ∧ ids1 = b :: S ∧ out2.id = b ++ "-2" ∧
    b ∈ ids2 ∧ (b ++ "-2") ∈ ids2 := by
  rw [normalizeCand_someEq] at h1 h2
  obtain ⟨e1, i1, -, -, -⟩ := normalize_some_inv _ _ _ _ _ h1
  obtain ⟨e2, i2, -, -, -⟩ := normalize_some_inv _ _ _ _ _ h2
  have hid1 : out1.id = b := by
    rw [e1]
    show pickUniqueId (candBaseId ctx c1) S = b
    rw [hb1]
    exact pickUniqueId_fresh b S hS
  have hids1 : ids1 = b :: S := by rw [i1, hid1]
  have hid2 : out2.id = b ++ "-2" := by
    rw [e2]
    show pickUniqueId (candBaseId ctx c2) ids1 = b ++ "-2"
    rw [hb2, hids1]
    exact pickUniqueId_collision b S hS2
  refine ⟨hid1, hids1, hid2, ?_, ?_⟩
  · rw [i2, hids1, hid2]
    exact List.mem_cons_of_mem _ (List.mem_cons_self _ _)
  · rw [i2, hid2]
    exact List.mem_cons_self _ _

def wBase : String := "2026-01-01-agent-hits-dollars-5k-mrr"

theorem slug_collision_suffix_assignment_witness :
    (acceptedCaseStudy wCtx wCand []).id = wBase ∧
    [wBase] = wBase :: [] ∧
    (acceptedCaseStudy wCtx wCand [wBase]).id = wBase ++ "-2" ∧
    wBase ∈ [wBase ++ "-2", wBase] ∧
    (wBase ++ "-2") ∈ [wBase ++ "-2", wBase] :=
  slug_collision_suffix_assignment wCtx wCand wCand [] [wBase] [wBase ++ "-2", wBase]
    (acceptedCaseStudy wCtx wCand []) (acceptedCaseStudy wCtx wCand [wBase]) wBase
    (by decide) (by decide) (by decide) (by decide) (by decide) (by decide)

/-- C10: every accepted case study has a non-empty `profitMechanisms`; when
the candidate supplied no usable entries the placeholder is used. -/
theorem profit_mechanisms_nonempty
    (ctx : NormalizeCtx) (c : RawCandidate) (S : List String)
    (out : CaseStudy) (outIds : List String)
    (h : normalizeCaseStudyCandidate (some c) ctx S = (some out, outIds)) :
    out.profitMechanisms ≠ [] ∧
    (cleanStrList c.profitMechanisms = [] →
      out.profitMechanisms = ["Unspecified (see proof sources)"]) := by
  rw [normalizeCand_someEq] at h
  obtain ⟨he, -, -, -, -⟩ := normalize_some_inv _ _ _ _ _ h
  subst he
  constructor
  · show (if (cleanStrList c.profitMechanisms).isEmpty then _ else _) ≠ []
    split_ifs with hpm
    · simp
    · intro hc
      rw [hc] at hpm
      exact hpm (by simp)
  · intro hpm
    show (if (cleanStrList c.profitMechanisms).isEmpty then _ else _) = _
    rw [hpm]
    simp

theorem profit_mechanisms_nonempty_witness :
    wOut.profitMechanisms ≠ [] ∧
    (cleanStrList wCand.profitMechanisms = [] →
      wOut.profitMechanisms = ["Unspecified (see proof sources)"]) :=
  profit_mechanisms_nonempty wCtx wCand [] wOut [wOut.id] (by decide)

/-! ### Aggregation lemmas (C4, C5) -/

lemma dedupFirstByUrl_mem {l : List StageSource} {seen : List String} {r : StageSource}
    (h : r ∈ dedupFirstByUrl l seen) : r ∈ l ∧ seen.contains r.url = false := by
  induction l generalizing seen with
  | nil => simp [dedupFirstByUrl] at h
  | cons x rest ih =>
    unfold dedupFirstByUrl at h
    split_ifs at h with hx
    · obtain ⟨h1, h2⟩ := ih h
      exact ⟨List.mem_cons_of_mem _ h1, h2⟩
    · rcases List.mem_cons.mp h with hh | hh
      · subst hh
        exact ⟨List.mem_cons_self _ _, by simpa using hx⟩
      · obtain ⟨h1, h2⟩ := ih hh
        rw [List.contains_cons] at h2
        refine ⟨List.mem_cons_of_mem _ h1, ?_⟩
        cases hc : seen.contains r.url
        · rfl
        · rw [hc] at h2
          simp at h2

/-- The survivor for a URL is the first occurrence of that URL in the
flattened input. -/
lemma dedupFirstByUrl_find? {l : List StageSource} {seen : List String} {r : StageSource}
    (h : r ∈ dedupFirstByUrl l seen) :
    l.find? (fun x => x.url == r.url) = some r := by
  induction l generalizing seen with
  | nil => simp [dedupFirstByUrl] at h
  | cons x rest ih =>
    unfold dedupFirstByUrl at h
    split_ifs at h with hx
    · have hseen := (dedupFirstByUrl_mem h).2
      have hne : x.url ≠ r.url := by
        intro he
        rw [← he] at hseen
        rw [hseen] at hx
        exact Bool.noConfusion hx
      rw [List.find?_cons_of_neg _ (by simpa using hne)]
      exact ih h
    · rcases List.mem_cons.mp h with hh | hh
      · subst hh
        rw [List.find?_cons_of_pos _ (by simp)]
      · have hseen := (dedupFirstByUrl_mem hh).2
        have hne : x.url ≠ r.url := by
          intro he
          rw [List.contains_cons] at hseen
          simp [he] at hseen
        rw [List.find?_cons_of_neg _ (by simpa using hne)]
        exact ih hh

lemma find?_flatMap_split {p : StageSource → Bool} {xs : List PendingStage}
    {f : PendingStage → List StageSource} {r : StageSource}
    (h : (xs.flatMap f).find? p = some r) :
    ∃ xs1 s xs2, xs = xs1 ++ s :: xs2 ∧ r ∈ f s ∧
      ∀ u ∈ xs1, ∀ v ∈ f u, p v = false := by
  induction xs with
  | nil => simp at h
  | cons s rest ih =>
    rw [List.flatMap_cons, List.find?_append] at h
    cases hfs : (f s).find? p with
    | some r0 =>
      rw [hfs] at h
      have : r0 = r := by simpa using h
      subst this
      exact ⟨[], s, rest, rfl, List.mem_of_find?_eq_some hfs, by simp⟩
    | none =>
      rw [hfs] at h
      simp only [Option.none_or] at h
      obtain ⟨xs1, s1, xs2, hsplit, hrs, hpre⟩ := ih h
      refine ⟨s :: xs1, s1, xs2, by rw [hsplit]; rfl, hrs, ?_⟩
      intro u hu v hv
      rcases List.mem_cons.mp hu with hh | hh
      · subst hh
        have := List.find?_eq_none.mp hfs v hv
        cases hpv : p v
        · rfl
        · exact absurd hpv this
      · exact hpre u hh v hv

lemma stageContribution_mem {s : PendingStage} {r : StageSource}
    (h : r ∈ stageContribution s) :
    s.status = StageStatus.completed ∧ ∃ l, s.sources = some l ∧ r ∈ l := by
  unfold stageContribution at h
  cases hs : s.sources with
  | none => rw [hs] at h; simp at h
  | some l =>
    rw [hs] at h
    split_ifs at h with hc
    · exact ⟨hc, l, rfl, h⟩
    · simp at h

lemma stageContribution_of {t : PendingStage} {m : List StageSource}
    (hc : t.status = StageStatus.completed) (hm : t.sources = some m) :
    stageContribution t = m := by
  unfold stageContribution
  rw [hm]
  simp [hc]

/-- C4: in one aggregation pass exactly one Source Record survives per URL,
and the survivor comes from a completed stage whose priority index (in the
hard-coded order, which matches the declared `DEFAULT_RESEARCH_STAGES`
priorities) is minimal among all completed stages citing that URL —
independent of the stage array order. -/
theorem source_dedup_keeps_highest_priority_stage
    (stages : List PendingStage) (r : StageSource)
    (hr : r ∈ aggregateStageSources stages) :
    (∀ q ∈ aggregateStageSources stages, q.url = r.url → q = r) ∧
    (∃ s ∈ stages, (s.status = StageStatus.completed ∧ ∃ l, s.sources = some l ∧ r ∈ l) ∧
      ∀ t ∈ stages, t.status = StageStatus.completed →
        (∃ m, t.sources = some m ∧ ∃ q ∈ m, q.url = r.url) →
        stageOrderIdx s.stageId ≤ stageOrderIdx t.stageId) ∧
    STAGE_PRIORITY_ORDER = DEFAULT_RESEARCH_STAGES.map (fun st => st.stageId) := by
  have hperm : (sortStagesByPriority stages).Perm stages := List.perm_insertionSort _ _
  have hsorted : List.Sorted stageLE (sortStagesByPriority stages) :=
    List.sorted_insertionSort _ _
  refine ⟨?_, ?_, by decide⟩
  · intro q hq hqu
    have hfq := dedupFirstByUrl_find? hq
    have hfr := dedupFirstByUrl_find? hr
    rw [hqu] at hfq
    rw [hfq] at hfr
    exact (Option.some.inj hfr)
  · have hfr := dedupFirstByUrl_find? hr
    obtain ⟨xs1, s, xs2, hsplit, hrs, hpre⟩ := find?_flatMap_split hfr
    obtain ⟨hcomp, l, hsl, hrl⟩ := stageContribution_mem hrs
    have hsmem : s ∈ sortStagesByPriority stages := by
      rw [hsplit]
      exact List.mem_append_right _ (List.mem_cons_self _ _)
    refine ⟨s, hperm.mem_iff.mp hsmem, ⟨hcomp, l, hsl, hrl⟩, ?_⟩
    intro t ht htc ⟨m, htm, q, hqm, hqu⟩
    have htmem : t ∈ sortStagesByPriority stages := hperm.mem_iff.mpr ht
    rw [hsplit] at htmem
    rcases List.mem_append.mp htmem with hh | hh
    · exfalso
      have hq : q ∈ stageContribution t := by
        rw [stageContribution_of htc htm]
        exact hqm
      have := hpre t hh q hq
      rw [show (q.url == r.url) = true from by simpa using hqu] at this
      exact Bool.noConfusion this
    · rcases List.mem_cons.mp hh with hh2 | hh2
      · rw [hh2]
      · have hp : List.Sorted stageLE (xs1 ++ s :: xs2) := by rw [← hsplit]; exact hsorted
        have hp2 := (List.pairwise_append.mp hp).2.1
        exact (List.pairwise_cons.mp hp2).1 t hh2

def w4Src (sid url : String) : StageSource :=
  { title := "t", url := url, date := none, snippet := none, stageId := sid }

def w4Stage (sid : String) (srcs : List StageSource) : PendingStage :=
  { stageId := sid, provider := .perplexity, requestId := none,
    status := .completed, query := "q", sources := some srcs,
    summary := some "s", error := none, completedAt := none }

/-- Witness stages listed against priority order: the later-priority stage
comes first in the array, both cite the same URL. -/
def w4Stages : List PendingStage :=
  [ w4Stage "news-roundup" [w4Src "news-roundup" "https://e.com/x"],
    w4Stage "grok-x-search" [w4Src "grok-x-search" "https://e.com/x"] ]

theorem source_dedup_keeps_highest_priority_stage_witness :
    (∀ q ∈ aggregateStageSources w4Stages,
      q.url = (w4Src "grok-x-search" "https://e.com/x").url →
        q = w4Src "grok-x-search" "https://e.com/x") ∧
    (∃ s ∈ w4Stages,
      (s.status = StageStatus.completed ∧
        ∃ l, s.sources = some l ∧ w4Src "grok-x-search" "https://e.com/x" ∈ l) ∧
      ∀ t ∈ w4Stages, t.status = StageStatus.completed →
        (∃ m, t.sources = some m ∧
          ∃ q ∈ m, q.url = (w4Src "grok-x-search" "https://e.com/x").url) →
        stageOrderIdx s.stageId ≤ stageOrderIdx t.stageId) ∧
    STAGE_PRIORITY_ORDER = DEFAULT_RESEARCH_STAGES.map (fun st => st.stageId) :=
  source_dedup_keeps_highest_priority_stage w4Stages
    (w4Src "grok-x-search" "https://e.com/x") (by decide)

/-! ### Summary aggregation (C5) -/

/-- Specification-order variant for comparison: the labeled summaries taken
after the same stage-priority sort that source aggregation uses ("in the
same priority order").  The implementation (`aggregateStageSummaries`)
instead iterates the stages array in its given order. -/
def aggregateStageSummariesSpecOrder (stages : List PendingStage) : String :=
  joinWith "\n\n" (summariesList (sortStagesByPriority stages))

def cexC5Stages : List PendingStage :=
  [ { stageId := "news-roundup", provider := .perplexity, requestId := none,
      status := .completed, query := "q", sources := some [], summary := some "B",
      error := none, completedAt := none },
    { stageId := "grok-x-search", provider := .grok, requestId := none,
      status := .completed, query := "q", sources := some [], summary := some "A",
      error := none, completedAt := none } ]

/-- C5 (counterexample): with the `news-roundup` stage ahead of the
`grok-x-search` stage in the array, the implementation emits the labeled
summaries in array order, not in the fixed priority order that source
aggregation uses. -/
theorem summaries_not_in_priority_order_counterexample :
    aggregateStageSummaries cexC5Stages =
      "--- news-roundup ---\nB\n\n--- grok-x-search ---\nA" ∧
    aggregateStageSummariesSpecOrder cexC5Stages =
      "--- grok-x-search ---\nA\n\n--- news-roundup ---\nB" ∧
    aggregateStageSummaries cexC5Stages ≠ aggregateStageSummariesSpecOrder cexC5Stages := by
  decide

/-- C5 (amended): the aggregated summary is the concatenation of each
contributing (completed, non-empty-summary) stage's labeled summary joined
by blank lines, in the stages array's own order (not the priority order). -/
theorem summaries_in_array_order (stages : List PendingStage) :
    aggregateStageSummaries stages =
      joinWith "\n\n" ((stages.filter summaryContrib).map summaryLabel) := by
  unfold aggregateStageSummaries
  congr 1
  induction stages with
  | nil => rfl
  | cons s rest ih =>
    by_cases h : summaryContrib s = true
    · simp [summariesList, List.filter_cons, h, ih]
    · simp only [Bool.not_eq_true] at h
      simp [summariesList, List.filter_cons, h, ih]

/-! ### The stage-sources invariant (C3) -/

/-- A stage's `sources` field is defined exactly when it is `completed`. -/
def stageSourcesInv (s : PendingStage) : Prop :=
  s.sources ≠ none ↔ s.status = StageStatus.completed

lemma mapIdx_forall {α β : Type} {P : β → Prop} :
    ∀ {f : Nat → α → β}, (∀ i a, P (f i a)) → ∀ l : List α, ∀ b ∈ List.mapIdx f l, P b := by
  intro f hf l
  induction l generalizing f with
  | nil => simp
  | cons a rest ih =>
    intro b hb
    rw [List.mapIdx_cons] at hb
    rcases List.mem_cons.mp hb with hh | hh
    · rw [hh]; exact hf 0 a
    · exact ih (fun i x => hf (i + 1) x) b hh

lemma mapIdx_mem {α β : Type} :
    ∀ {f : Nat → α → β} {l : List α} {b : β},
      b ∈ List.mapIdx f l → ∃ a ∈ l, ∃ i, b = f i a := by
  intro f l
  induction l generalizing f with
  | nil => simp
  | cons a rest ih =>
    intro b hb
    rw [List.mapIdx_cons] at hb
    rcases List.mem_cons.mp hb with hh | hh
    · exact ⟨a, List.mem_cons_self _ _, 0, hh⟩
    · obtain ⟨x, hx, i, he⟩ := ih hh
      exact ⟨x, List.mem_cons_of_mem _ hx, i + 1, he⟩

lemma pollPerplexityStage_inv (s : PendingStage)
    (fetch : Except String PerplexityAsyncJob) (now : String)
    (h : stageSourcesInv s) : stageSourcesInv (pollPerplexityStage s fetch now) := by
  unfold pollPerplexityStage
  split_ifs with h1 h2
  · exact h
  · exact h
  · have hnc : s.status ≠ StageStatus.completed := fun hc => h2 (Or.inl hc)
    have hsrc : s.sources = none := by
      by_contra hne
      exact hnc (h.mp hne)
    cases fetch with
    | error msg => simp [stageSourcesInv, hsrc]
    | ok job =>
      dsimp only
      split_ifs with h3 h4
      · simp [stageSourcesInv, hsrc]
      · simp [stageSourcesInv, hsrc]
      · simp [stageSourcesInv]

lemma startStages_inv (selected : List ResearchStage)
    (grokOut : Nat → Except String (List GrokSearchSource × String))
    (pplxOut : Nat → Except String String)
    (gq : String) (pq : String → String) (now : String) :
    ∀ s ∈ startStages selected grokOut pplxOut gq pq now, stageSourcesInv s := by
  intro s hs
  unfold startStages at hs
  rcases List.mem_append.mp hs with hh | hh
  · obtain ⟨a, _, i, he⟩ := mapIdx_mem hh
    rw [he]
    unfold grokStageFromOutcome
    cases grokOut i with
    | ok pair => simp [stageSourcesInv]
    | error msg => simp [stageSourcesInv]
  · obtain ⟨a, _, i, he⟩ := mapIdx_mem hh
    rw [he]
    unfold perplexityStageFromOutcome
    cases pplxOut i with
    | ok rid => simp [stageSourcesInv]
    | error msg => simp [stageSourcesInv]

lemma finalize_stages_inv (raw : PendingScoutJob)
    (oracle : Nat → Nat → Except String PerplexityAsyncJob) (now : String)
    (h : ∀ t ∈ (rawJobToV2 raw).stages, stageSourcesInv t) :
    ∀ s ∈ (finalizeScoutJob raw oracle now).jobAfter.stages, stageSourcesInv s := by
  have pass : ∀ (p : Nat) (cond : PendingStage → Bool) (stages : List PendingStage),
      (∀ t ∈ stages, stageSourcesInv t) →
      ∀ s ∈ stages.mapIdx (fun i t =>
        if cond t then pollPerplexityStage t (oracle p i) now else t), stageSourcesInv s := by
    intro p cond stages hst s hs
    obtain ⟨a, ha, i, he⟩ := mapIdx_mem hs
    rw [he]
    split_ifs
    · exact pollPerplexityStage_inv a (oracle p i) now (hst a ha)
    · exact hst a ha
  intro s hs
  simp only [finalizeScoutJob] at hs
  split_ifs at hs with h1 h2 h3
  · exact h s hs
  · exact pass 1 _ _ (pass 0 _ _ h) s hs
  · exact pass 1 _ _ (pass 0 _ _ h) s hs
  · exact pass 0 _ _ h s hs

/-- C3: after every operation of the job state machine — creating the
stages at job start, upgrading a V1 job, polling one stage, or a whole
finalize call — every stage satisfies "`sources` is defined iff the status
is `completed`". -/
theorem stage_sources_iff_completed :
    (∀ selected grokOut pplxOut gq pq now,
      ∀ s ∈ startStages selected grokOut pplxOut gq pq now, stageSourcesInv s) ∧
    (∀ j : PendingPerplexityAsyncJobV1, ∀ s ∈ (convertV1ToV2 j).stages, stageSourcesInv s) ∧
    (∀ (stage : PendingStage) (fetch : Except String PerplexityAsyncJob) (now : String),
      stageSourcesInv stage → stageSourcesInv (pollPerplexityStage stage fetch now)) ∧
    (∀ (raw : PendingScoutJob) (oracle : Nat → Nat → Except String PerplexityAsyncJob)
      (now : String),
      (∀ t ∈ (rawJobToV2 raw).stages, stageSourcesInv t) →
      ∀ s ∈ (finalizeScoutJob raw oracle now).jobAfter.stages, stageSourcesInv s) := by
  refine ⟨startStages_inv, ?_, pollPerplexityStage_inv, finalize_stages_inv⟩
  intro j s hs
  unfold convertV1ToV2 at hs
  simp only [List.mem_singleton] at hs
  rw [hs]
  simp [stageSourcesInv]

def w3Stage : PendingStage :=
  { stageId := "hackathon", provider := .perplexity, requestId := some "req-1",
    status := .pending, query := "q", sources := none, summary := none,
    error := none, completedAt := none }

def w3Job : PerplexityAsyncJob :=
  { status := .COMPLETED, error_message := none,
    response := some
      { search_results := some
          [ { title := some "T", url := some "https://e.com/x", date := none, snippet := none } ],
        choices := some [ { message := some { content := some "report" } } ] } }

theorem stage_sources_iff_completed_witness :
    stageSourcesInv (pollPerplexityStage w3Stage (.ok w3Job) "t1") :=
  stage_sources_iff_completed.2.2.1 w3Stage (.ok w3Job) "t1" (by simp [stageSourcesInv, w3Stage])

/-! ### Finalize attempt accounting (C2) -/

def cexC2Job : PendingScoutJobV2 :=
  { createdAt := "2026-01-01T00:00:00Z", lastFinalizeAt := none,
    finalizeAttempts := some 2, runId := "run-1", withinDays := 7, find := 10,
    searchLimit := 20, mode := none, stages := [] }

/-- C2 (counterexample): a finalize call on a job whose budget is spent is
reported blocked, performs no polling, and writes nothing — the persisted
`finalizeAttempts` stays at 2 instead of strictly increasing. -/
theorem finalize_blocked_no_increment_counterexample :
    (finalizeScoutJob (.v2 cexC2Job) (fun _ _ => .error "net") "t1").response =
      FinalizeResponse.blocked "run-1" 2 ∧
    (finalizeScoutJob (.v2 cexC2Job) (fun _ _ => .error "net") "t1").writes = [] ∧
    (finalizeScoutJob (.v2 cexC2Job) (fun _ _ => .error "net") "t1").jobAfter.finalizeAttempts =
      some 2 ∧
    (finalizeScoutJob (.v2 cexC2Job) (fun _ _ => .error "net") "t1").pollCount = 0 := by
  refine ⟨rfl, rfl, rfl, rfl⟩

/-- C2 (amended): every finalize call made while the budget is not exhausted
(fewer than 2 prior attempts) persists `finalizeAttempts` as exactly the
prior value plus 1, in every job state written during the call and
regardless of the polling outcome; at least one state is written. -/
theorem finalize_increments_attempts_when_not_blocked
    (raw : PendingScoutJob) (oracle : Nat → Nat → Except String PerplexityAsyncJob)
    (now : String)
    (h : (rawJobToV2 raw).finalizeAttempts.getD 0 < 2) :
    (finalizeScoutJob raw oracle now).writes ≠ [] ∧
    ∀ w ∈ (finalizeScoutJob raw oracle now).writes,
      w.finalizeAttempts = some ((rawJobToV2 raw).finalizeAttempts.getD 0 + 1) := by
  simp only [finalizeScoutJob]
  split_ifs with h1 h2 h3
  · exact absurd h1 (by omega)
  all_goals
    refine ⟨by simp, ?_⟩
  all_goals
    intro w hw
    simp only [List.mem_cons, List.mem_singleton] at hw
  · rcases hw with hw | hw | hw
    · rw [hw]
    · rw [hw]
    · exact absurd hw (by simp)
  · rcases hw with hw | hw | hw
    · rw [hw]
    · rw [hw]
    · exact absurd hw (by simp)
  · rcases hw with hw | hw
    · rw [hw]
    · exact absurd hw (by simp)

def wC2Job : PendingScoutJobV2 :=
  { createdAt := "2026-01-01T00:00:00Z", lastFinalizeAt := none,
    finalizeAttempts := some 1, runId := "run-2", withinDays := 7, find := 10,
    searchLimit := 20, mode := none, stages := [] }

theorem finalize_increments_attempts_when_not_blocked_witness :
    (finalizeScoutJob (.v2 wC2Job) (fun _ _ => .error "net") "t1").writes ≠ [] ∧
    ∀ w ∈ (finalizeScoutJob (.v2 wC2Job) (fun _ _ => .error "net") "t1").writes,
      w.finalizeAttempts = some ((rawJobToV2 (.v2 wC2Job)).finalizeAttempts.getD 0 + 1) :=
  finalize_increments_attempts_when_not_blocked (.v2 wC2Job)
    (fun _ _ => .error "net") "t1" (by decide)

/-! ### Publish/read round trip (C9) -/

lemma lookup_cons_ne {k p : String} {v : BlobValue} {st : BlobStore} (hne : k ≠ p) :
    List.lookup k ((p, v) :: st) = List.lookup k st := by
  simp [List.lookup, beq_eq_false_iff_ne.mpr hne]

lemma lookup_ite_cons_ne {k p : String} {v : BlobValue} {st : BlobStore}
    (b : Prop) [Decidable b] (hne : k ≠ p) :
    List.lookup k (if b then (p, v) :: st else st) = List.lookup k st := by
  split_ifs with hb
  · exact lookup_cons_ne hne
  · rfl

lemma blobPut_ok {store : BlobStore} {p : String} {v : BlobValue} {ow : Bool}
    {pr : BlobStore × String} (h : blobPut store p v ow = .ok pr) :
    pr = ((p, v) :: store, p) := by
  unfold blobPut at h
  split_ifs at h with hc
  all_goals first
    | exact (Except.ok.inj h).symm
    | exact absurd h (by simp)

lemma lookup_auditStores {k : String} {store1 : BlobStore} {a : WriteRunArtifacts}
    (hk : ∀ x y : String, k ≠ "weekly-scout/" ++ x ++ y) :
    List.lookup k (auditStores store1 a) = List.lookup k store1 := by
  simp only [auditStores]
  rw [lookup_ite_cons_ne _ (hk _ _)]
  rw [lookup_ite_cons_ne _ (hk _ _)]
  rw [lookup_ite_cons_ne _ (hk _ _)]
  rw [lookup_ite_cons_ne _ (hk _ _)]

lemma append_ne_of_prefix_diff (p q s t : String) (i : Nat)
    (hip : i < p.data.length) (hiq : i < q.data.length)
    (hne : p.data[i]? ≠ q.data[i]?) : p ++ s ≠ q ++ t := by
  intro h
  have hd : p.data ++ s.data = q.data ++ t.data := by
    rw [← String.data_append, ← String.data_append, h]
  apply hne
  rw [show p.data[i]? = (p.data ++ s.data)[i]? from by
    rw [List.getElem?_append, if_pos hip]]
  rw [show q.data[i]? = (q.data ++ t.data)[i]? from by
    rw [List.getElem?_append, if_pos hiq]]
  rw [hd]

/-- C9: a successful publish followed by reading the manifest URL and then
the snapshot URL it references yields exactly the published dataset, and the
manifest's `count` equals that dataset's length. -/
theorem publish_read_round_trip
    (store : BlobStore) (a : WriteRunArtifacts) (now : String) (res : PublishResult)
    (h : writeLiveCaseStudiesToBlob store a now = .ok res) :
    readManifestAt res.store res.manifestUrl = some res.manifest ∧
    readCaseStudiesAt res.store res.manifest.snapshotUrl = some a.all ∧
    res.manifest.count = a.all.length := by
  have hsm : ("case-studies/snapshots/" ++ encodeURIComponent a.runId ++ ".json") ≠
      ("case-studies/live-manifest/" ++ encodeURIComponent a.runId ++ ".json") := by
    rw [String.append_assoc, String.append_assoc]
    exact append_ne_of_prefix_diff _ _ _ _ 13 (by decide) (by decide) (by decide)
  have hsl : ("case-studies/snapshots/" ++ encodeURIComponent a.runId ++ ".json") ≠
      "case-studies/latest.json" := by
    rw [String.append_assoc]
    have := append_ne_of_prefix_diff "case-studies/snapshots/" "case-studies/latest.json"
      (encodeURIComponent a.runId ++ ".json") "" 13 (by decide) (by decide) (by decide)
    simpa [String.append_empty] using this
  have hml : ("case-studies/live-manifest/" ++ encodeURIComponent a.runId ++ ".json") ≠
      "case-studies/latest.json" := by
    rw [String.append_assoc]
    have := append_ne_of_prefix_diff "case-studies/live-manifest/" "case-studies/latest.json"
      (encodeURIComponent a.runId ++ ".json") "" 14 (by decide) (by decide) (by decide)
    simpa [String.append_empty] using this
  have hsw : ∀ x y : String, ("case-studies/snapshots/" ++ encodeURIComponent a.runId ++ ".json") ≠
      ("weekly-scout/" ++ x ++ y) := by
    intro x y
    rw [String.append_assoc, String.append_assoc]
    exact append_ne_of_prefix_diff _ _ _ _ 0 (by decide) (by decide) (by decide)
  simp only [writeLiveCaseStudiesToBlob, LIVE_MANIFEST_DIR, LATEST_POINTER_PATH] at h
  split at h
  · exact absurd h (by simp)
  rename_i store1 snapshotUrl heq1
  have hpr1 := blobPut_ok heq1
  injection hpr1 with hst1 hurl1
  subst hst1
  subst hurl1
  split at h
  · exact absurd h (by simp)
  rename_i store6 manifestUrl heq2
  have hpr2 := blobPut_ok heq2
  injection hpr2 with hst2 hurl2
  subst hst2
  subst hurl2
  split at h
  · exact absurd h (by simp)
  rename_i store7 lastUrl heq3
  have hpr3 := blobPut_ok heq3
  injection hpr3 with hst3 hurl3
  subst hst3
  subst hurl3
  have hres := (Except.ok.inj h).symm
  subst hres
  refine ⟨?_, ?_, rfl⟩
  · unfold readManifestAt blobRead
    dsimp only
    rw [lookup_cons_ne hml]
    rw [List.lookup]
    simp
  · unfold readCaseStudiesAt blobRead
    dsimp only
    rw [lookup_cons_ne hsl, lookup_cons_ne hsm]
    rw [lookup_auditStores hsw]
    rw [List.lookup]
    simp

def w9Study : CaseStudy :=
  { id := "2026-02-01-agent-earns-dollars-5k", date := "2026-02-01",
    title := "Agent earns $5k", summary := "s", description := "d",
    profitMechanisms := ["SaaS"], tags := [],
    proofSources := [ { label := "GitHub", url := "https://github.com/a/b",
                        kind := none, excerpt := some "made $5k" } ],
    status := .speculation }

def w9Artifacts : WriteRunArtifacts :=
  { runId := "2026-02-03T00-00-00Z", all := [w9Study], added := [],
    perplexityRaw := false, claudeRaw := false, runLog := false }

def w9Res : PublishResult :=
  { store :=
      [ ("case-studies/latest.json",
          BlobValue.pointer
            { manifestUrl := "case-studies/live-manifest/2026-02-03T00-00-00Z.json",
              snapshotUrl := "case-studies/snapshots/2026-02-03T00-00-00Z.json",
              runId := "2026-02-03T00-00-00Z", updatedAt := "t" }),
        ("case-studies/live-manifest/2026-02-03T00-00-00Z.json",
          BlobValue.manifest
            { updatedAt := "t", runId := "2026-02-03T00-00-00Z", count := 1,
              snapshotUrl := "case-studies/snapshots/2026-02-03T00-00-00Z.json",
              addedIds := [] }),
        ("case-studies/snapshots/2026-02-03T00-00-00Z.json",
          BlobValue.caseStudies [w9Study]) ]
    snapshotUrl := "case-studies/snapshots/2026-02-03T00-00-00Z.json"
    manifestUrl := "case-studies/live-manifest/2026-02-03T00-00-00Z.json"
    manifest :=
      { updatedAt := "t", runId := "2026-02-03T00-00-00Z", count := 1,
        snapshotUrl := "case-studies/snapshots/2026-02-03T00-00-00Z.json",
        addedIds := [] } }

theorem publish_read_round_trip_witness :
    readManifestAt w9Res.store w9Res.manifestUrl = some w9Res.manifest ∧
    readCaseStudiesAt w9Res.store w9Res.manifest.snapshotUrl = some w9Artifacts.all ∧
    w9Res.manifest.count = w9Artifacts.all.length :=
  publish_read_round_trip [] w9Artifacts "t" w9Res rfl

end AgentProfit
